import Mathlib

/-!
GG20 distributed key generation: the keygen round state machine.

A shallow embedding of
`src/protocols/multi_party_ecdsa/gg_2020/state_machine/keygen/rounds.rs`
(the per-party DKG round state machine of a threshold-ECDSA implementation),
together with proofs of the specification claims about it.

Modelling conventions:
* secp256k1 scalars are `ZMod secpOrder` where `secpOrder` is the order of the
  secp256k1 group; the group of curve points is cyclic of the same order, so it
  is modelled by the isomorphic group `ZMod secpOrder`, the generator `G`
  corresponding to `1`.
* Rust `u16` party indices and counters are `Nat` (the code never exercises
  16-bit overflow: indices are bounded by the party count).
* A fallible Rust `Result<T, ProceedError>` becomes `Except ProceedError T`;
  a transition that can panic (out-of-bounds indexing, `unwrap`) is wrapped in
  `Option`, `none` standing for the panic.
* The push-sink `O: Push<Msg<_>>` of a round is modelled by returning the list
  of pushed messages alongside the successor state, in push order.
* External library primitives (Paillier encryption, the composite proof
  verifications of `party_i.rs`) that the claims treat as opaque are fields of
  an `Env` record, so every theorem quantifies over their behaviour.
-/

/-- Order of the secp256k1 group (both the scalar field and the point group). -/
def secpOrder : Nat :=
  0xFFFFFFFFFFFFFFFFFFFFFFFFFFFFFFFEBAAEDCE6AF48A03BBFD25E8CD0364141

theorem secpOrder_pos : 0 < secpOrder := by norm_num [secpOrder]

instance : NeZero secpOrder := ⟨Nat.pos_iff_ne_zero.mp secpOrder_pos⟩

/-- secp256k1 scalar field element (`curv::elliptic::curves::Scalar<Secp256k1>`). -/
abbrev Scalar : Type := ZMod secpOrder

/-- secp256k1 curve point (`curv::elliptic::curves::Point<Secp256k1>`), modelled
by the isomorphic cyclic group `ZMod secpOrder`, with the generator mapped to 1. -/
abbrev Point : Type := ZMod secpOrder

/-- The secp256k1 generator under the modelling isomorphism. -/
def G : Point := 1

/-- Scalar multiplication `s·P` on the modelled point group. -/
def scalarMul (s : Scalar) (p : Point) : Point := s * p

/-- Embedding of `curv` big-endian byte strings; per spec §6 serialization of big integers is
canonical and lossless, so a byte string is modelled by the integer it denotes. -/
structure Bytes where
  val : Nat
deriving DecidableEq, Repr, Inhabited

/-- Embedding of `curv::BigInt::from_bytes` (big-endian decode). -/
def BigInt.from_bytes (b : Bytes) : Nat := b.val

/-- Embedding of `curv::BigInt::to_bytes` (big-endian encode, canonical). -/
def BigInt.to_bytes (v : Nat) : Bytes := ⟨v⟩

/-- Embedding of `curv` `Scalar::<Secp256k1>::from_bigint`: total, reduces the integer modulo
the group order (never rejects an oversized input). -/
def Scalar.from_bigint (v : Nat) : Scalar := (v : ZMod secpOrder)

/-- Embedding of `curv` `Scalar::<Secp256k1>::to_bigint`: the canonical representative. -/
def Scalar.to_bigint (s : Scalar) : Nat := ZMod.val s

/-- Embedding of `paillier::EncryptionKey` (the public modulus data). -/
structure EncryptionKey where
  n : Nat
deriving DecidableEq, Repr, Inhabited

/-- Embedding of `paillier::DecryptionKey` (the prime factors). -/
structure DecryptionKey where
  p : Nat
  q : Nat
deriving DecidableEq, Repr, Inhabited

/-- Embedding of `zk_paillier::zkproofs::DLogStatement` (N_tilde, h1, h2 auxiliary data). -/
structure DLogStatement where
  N : Nat
  g : Nat
  ni : Nat
deriving DecidableEq, Repr, Inhabited

/-- Embedding of `VerifiableSS<Secp256k1>` (Feldman VSS public data): threshold parameters
and the commitment vector `[a_0·G, …, a_t·G]` to the secret polynomial. -/
structure VerifiableSS where
  threshold : Nat
  share_count : Nat
  commitments : List Point
deriving DecidableEq

instance : Inhabited VerifiableSS := ⟨⟨0, 0, []⟩⟩

/-- Embedding of `curv` sigma-protocol `DLogProof<Secp256k1, Sha256>`; `pk` is the public
point the proof is about. -/
structure DLogProof where
  pk : Point
  pk_t_rand_commitment : Point
  challenge_response : Scalar
deriving DecidableEq

instance : Inhabited DLogProof := ⟨⟨0, 0, 0⟩⟩

/-- Modelled from the spec: `KeyGenBroadcastMessage1` of `gg_2020::party_i` is
not under `src/`. Spec §3: the R0 commitment packet is the tuple
{commitment_to_y_i, ek, correct-key-proof, DLogStatement, correct-h1h2-proof};
the proofs are opaque tokens here. -/
structure KeyGenBroadcastMessage1 where
  com : Nat
  e : EncryptionKey
  dlog_statement : DLogStatement
  correct_key_proof : Nat
  composite_dlog_proof : Nat
deriving DecidableEq, Repr, Inhabited

/-- Modelled from the spec: `KeyGenDecommitMessage1` of `gg_2020::party_i` is
not under `src/`. Spec §3: the decommitment is {y_i, blinding}. -/
structure KeyGenDecommitMessage1 where
  blind_factor : Nat
  y_i : Point
deriving DecidableEq

instance : Inhabited KeyGenDecommitMessage1 := ⟨⟨0, 0⟩⟩

/-- Modelled from the spec: `Keys` of `gg_2020::party_i` is not under `src/`.
Spec §3 per-party keys: the secret scalar u_i with point y_i = u_i·G, the
Paillier keypair (dk, ek), and the party index. -/
structure Keys where
  u_i : Scalar
  y_i : Point
  dk : DecryptionKey
  ek : EncryptionKey
  party_index : Nat
deriving DecidableEq

instance : Inhabited Keys := ⟨⟨0, 0, default, default, 0⟩⟩

/-- Modelled from the spec: `SharedKeys` of `gg_2020::party_i` is not under
`src/`. Spec §3: `keys_linear` is the pair (x_i, X_i) of the party's own
additive share and its public point X. -/
structure SharedKeys where
  X : Point
  x_i : Scalar
deriving DecidableEq

instance : Inhabited SharedKeys := ⟨⟨0, 0⟩⟩

/-- Modelled from the spec: `ErrorType` of `gg_2020` is not under `src/`; it is
the error detail carried by every `ProceedError`, identifying the offending
parties. -/
structure ErrorType where
  error_type : String
  bad_actors : List Nat
deriving DecidableEq, Repr, Inhabited

/-- Embedding of `gg_2020::party_i::Parameters`. -/
structure Parameters where
  threshold : Nat
  share_count : Nat
deriving DecidableEq, Repr, Inhabited

deriving instance DecidableEq for Except

/-- Embedding of `round_based::Msg`: an outbound wire message; `receiver = none` is a
broadcast, `receiver = some j` a P2P message to party `j`. -/
structure Msg (B : Type) where
  round : Nat
  sender : Nat
  receiver : Option Nat
  body : B
deriving DecidableEq

/-- Embedding of `round_based::containers::BroadcastMsgs<T>`: the closed store of the n−1
peer broadcasts of one round, held in party-index order (spec §6). -/
structure BroadcastMsgs (T : Type) where
  party_i : Nat
  msgs : List T
deriving DecidableEq

/-- Embedding of `into_vec_including_me`: merge the own message at its canonical index
`party_i − 1`, producing the length-n vector indexed by party number (spec §6,
§5 «Own message is merged into the vector at its canonical index»). -/
def BroadcastMsgs.into_vec_including_me {T : Type} (b : BroadcastMsgs T) (own : T) : List T :=
  b.msgs.take (b.party_i - 1) ++ own :: b.msgs.drop (b.party_i - 1)

/-- Embedding of `round_based::containers::P2PMsgs<T>`: the closed store of the n−1 peer P2P
messages of one round, as (sender index, body) pairs in sender order (spec §6). -/
structure P2PMsgs (T : Type) where
  party_i : Nat
  msgs : List (Nat × T)
deriving DecidableEq

/-- Embedding of `into_iter_indexed` of `P2PMsgs` (spec §6): the (sender, body) pairs. -/
def P2PMsgs.into_iter_indexed {T : Type} (p : P2PMsgs T) : List (Nat × T) := p.msgs

/-- Embedding of `into_vec_including_me` of `P2PMsgs`: drop sender indices and merge the own
body at canonical index `party_i − 1` (spec §6). -/
def P2PMsgs.into_vec_including_me {T : Type} (p : P2PMsgs T) (own : T) : List T :=
  (p.msgs.map Prod.snd).take (p.party_i - 1) ++ own :: (p.msgs.map Prod.snd).drop (p.party_i - 1)

/-- Embedding of `round_based::containers::P2PMsgsStore<T>`: the mutable collector the
runtime (and `Round3::proceed`, rebuilding decrypted shares) fills. One slot
per peer sender index; spec §6/§9: a one-shot container indexed by party
number. -/
structure P2PMsgsStore (T : Type) where
  party_i : Nat
  n : Nat
  slots : Nat → Option T

/-- Embedding of `P2PMsgsStore::new(i, n)`: empty store expecting one message from every
`j ∈ [1, n] \ \x7bi\x7d`. -/
def P2PMsgsStore.new (T : Type) (i n : Nat) : P2PMsgsStore T :=
  ⟨i, n, fun _ => none⟩

/-- Embedding of `push_msg`: accept the message iff its sender is a valid fresh peer index
(in `[1, n]`, not the own index, slot still empty); otherwise reject it,
returning the untouched store. The `Bool` is the discarded `Result` of the
source. -/
def P2PMsgsStore.push_msg {T : Type} (st : P2PMsgsStore T) (m : Msg T) :
    P2PMsgsStore T × Bool :=
  if (1 ≤ m.sender ∧ m.sender ≤ st.n ∧ m.sender ≠ st.party_i) ∧ (st.slots m.sender).isNone then
    (⟨st.party_i, st.n, fun k => if k = m.sender then some m.body else st.slots k⟩, true)
  else (st, false)

/-- The peer indices `[1, n] \ \x7bi\x7d` the store expects, in order. -/
def P2PMsgsStore.required {T : Type} (st : P2PMsgsStore T) : List Nat :=
  ((List.range st.n).map (· + 1)).filter (fun j => j ≠ st.party_i)

/-- Embedding of `finish`: succeed iff every expected slot is filled, yielding the closed
`P2PMsgs` in sender order. -/
def P2PMsgsStore.finish {T : Type} (st : P2PMsgsStore T) : Option (P2PMsgs T) :=
  if st.required.all (fun j => (st.slots j).isSome) then
    some ⟨st.party_i, st.required.filterMap (fun j => (st.slots j).map (fun b => (j, b)))⟩
  else none

/-- Embedding of `ProceedError` (rounds.rs, lines 368–376): the only errors a round
transition can return. -/
inductive ProceedError where
  | Round2VerifyCommitments (e : ErrorType)
  | Round3VerifyVssConstruct (e : ErrorType)
  | Round4VerifyDLogProof (e : ErrorType)
deriving DecidableEq, Repr

/-- Embedding of `IsCritical for ProceedError` (rounds.rs, lines 378–381). -/
def ProceedError.is_critical (_ : ProceedError) : Bool := true

/-- The external primitives consumed through the interfaces of spec §6: the
key-generation and proof-verification routines of `party_i.rs` (treated as
opaque by every claim that only conditions on their success or failure) and the
Paillier encryption primitives. Theorems quantify over an arbitrary `Env`. -/
structure Env where
  keys_create : Nat → Keys
  phase1_broadcast : Keys → KeyGenBroadcastMessage1 × KeyGenDecommitMessage1
  phase1_verify_com_phase3_verify_correct_key_verify_dlog_phase2_distribute :
    Keys → Parameters → List KeyGenDecommitMessage1 → List KeyGenBroadcastMessage1 →
    Except ErrorType (VerifiableSS × List Scalar)
  paillier_encrypt : EncryptionKey → Nat → Nat
  paillier_decrypt : DecryptionKey → Nat → Nat
  verify_dlog_proofs_check_against_vss :
    Parameters → List DLogProof → List Point → List VerifiableSS → Except ErrorType Unit

/-- Evaluation of the Feldman commitment polynomial `Σ_k c_k · x^k` at `x`
(Horner form), as `VerifiableSS::get_point_commitment`/share validation uses. -/
def evalCommitments : List Point → Nat → Point
  | [], _ => 0
  | c :: cs, x => c + (x : Point) * evalCommitments cs x

/-- VSS public polynomial evaluation at a party index. -/
def VerifiableSS.evalAt (v : VerifiableSS) (index : Nat) : Point :=
  evalCommitments v.commitments index

/-- Modelled from the spec: `DLogProof::prove` lives in the external `curv`
library. Spec §3/§4.4: a Schnorr-style proof of knowledge of `x` whose public
point is `x·G`; the randomized components are modelled deterministically as 0,
only `pk` is ever inspected by this state machine. -/
def DLogProof.prove (x : Scalar) : DLogProof :=
  ⟨scalarMul x G, 0, 0⟩

/-- Modelled from the spec:
`Keys::phase2_verify_vss_construct_keypair_phase3_pok_dlog` of
`gg_2020::party_i` is not under `src/`. Spec §4.4: for each j, check that
`share_{j→i}·G` equals the evaluation of vss_j's public polynomial at i
(failure is the fatal VSS-construct error identifying the offending parties);
on success compute `x_i = Σ_j share_{j→i}`, `X_i = x_i·G`, and produce a DLog
proof of knowledge of `x_i` whose public point is `X_i`. -/
def phase2_verify_vss_construct_keypair_phase3_pok_dlog
    (_params : Parameters) (y_vec : List Point) (secret_shares_vec : List Scalar)
    (vss_scheme_vec : List VerifiableSS) (index : Nat) :
    Except ErrorType (SharedKeys × DLogProof) :=
  let bad := (List.range y_vec.length).filter (fun j =>
    decide (scalarMul (secret_shares_vec.getD j 0) G ≠
      (vss_scheme_vec.getD j default).evalAt index))
  if bad.isEmpty then
    let x_i : Scalar := secret_shares_vec.foldl (· + ·) 0
    Except.ok (⟨scalarMul x_i G, x_i⟩, DLogProof.prove x_i)
  else
    Except.error ⟨"invalid vss", bad.map (· + 1)⟩

/-! ## The round states and transitions (rounds.rs) -/

/-- Embedding of `Round0` (rounds.rs, lines 24–28). -/
structure Round0 where
  party_i : Nat
  t : Nat
  n : Nat
deriving DecidableEq, Repr

/-- Embedding of `Round1` (rounds.rs, lines 59–66). -/
structure Round1 where
  keys : Keys
  bc1 : KeyGenBroadcastMessage1
  decom1 : KeyGenDecommitMessage1
  party_i : Nat
  t : Nat
  n : Nat
deriving DecidableEq

/-- Embedding of `Round2` (rounds.rs, lines 101–109). -/
structure Round2 where
  keys : Keys
  received_comm : List KeyGenBroadcastMessage1
  decom : KeyGenDecommitMessage1
  party_i : Nat
  t : Nat
  n : Nat
deriving DecidableEq

/-- Embedding of `Round3` (rounds.rs, lines 177–189). -/
structure Round3 where
  keys : Keys
  y_vec : List Point
  bc_vec : List KeyGenBroadcastMessage1
  own_vss : VerifiableSS
  own_share : Scalar
  party_i : Nat
  t : Nat
  n : Nat
deriving DecidableEq

/-- Embedding of `Round4` (rounds.rs, lines 265–276). -/
structure Round4 where
  keys : Keys
  y_vec : List Point
  bc_vec : List KeyGenBroadcastMessage1
  shared_keys : SharedKeys
  own_dlog_proof : DLogProof
  vss_vec : List VerifiableSS
  party_i : Nat
  t : Nat
  n : Nat
deriving DecidableEq

/-- Embedding of `LocalKey<Secp256k1>` (rounds.rs, lines 339–351): the terminal artifact. -/
structure LocalKey where
  paillier_dk : DecryptionKey
  pk_vec : List Point
  keys_linear : SharedKeys
  paillier_key_vec : List EncryptionKey
  y_sum_s : Point
  h1_h2_n_tilde_vec : List DLogStatement
  vss_scheme : VerifiableSS
  i : Nat
  t : Nat
  n : Nat
deriving DecidableEq

/-- Embedding of `LocalKey::public_key` (rounds.rs, lines 355–357). -/
def LocalKey.public_key (lk : LocalKey) : Point := lk.y_sum_s

/-- Embedding of `Round0::proceed` (rounds.rs, lines 31–53): create fresh keys, broadcast the
R0 commitment packet, succeed with the `Round1` state. -/
def Round0.proceed (env : Env) (self : Round0) :
    Except ProceedError (Round1 × List (Msg KeyGenBroadcastMessage1)) :=
  let party_keys := env.keys_create self.party_i
  let bd := env.phase1_broadcast party_keys
  Except.ok
    (⟨party_keys, bd.1, bd.2, self.party_i, self.t, self.n⟩,
     [⟨1, self.party_i, none, bd.1⟩])

/-- Embedding of `Round0::is_expensive` (rounds.rs, lines 54–56). -/
def Round0.is_expensive (_ : Round0) : Bool := true

/-- Embedding of `Round1::proceed` (rounds.rs, lines 69–92): broadcast the own decommitment
and succeed with the `Round2` state holding the received commitment vector. -/
def Round1.proceed (self : Round1) (input : BroadcastMsgs KeyGenBroadcastMessage1) :
    Except ProceedError (Round2 × List (Msg KeyGenDecommitMessage1)) :=
  Except.ok
    (⟨self.keys, input.into_vec_including_me self.bc1, self.decom1,
      self.party_i, self.t, self.n⟩,
     [⟨2, self.party_i, none, self.decom1⟩])

/-- Embedding of `Round1::is_expensive` (rounds.rs, lines 93–95). -/
def Round1.is_expensive (_ : Round1) : Bool := false

/-- The P2P message `Round2::proceed` pushes to recipient `k + 1` (rounds.rs,
lines 144–152): the own VSS scheme together with the Paillier encryption, under
the recipient's stored R0 encryption key, of the recipient's share. -/
def round2Msg (env : Env) (self : Round2) (scheme : VerifiableSS) (shares : List Scalar)
    (k : Nat) : Msg (VerifiableSS × Bytes) :=
  ⟨3, self.party_i, some (k + 1),
   (scheme,
    BigInt.to_bytes (env.paillier_encrypt (self.received_comm.getD k default).e
      (Scalar.to_bigint (shares.getD k 0))))⟩

/-- The successor `Round3` state built at the end of `Round2::proceed`
(rounds.rs, lines 155–167): the decommitment points, the stored commitments,
the own VSS scheme and the own share at index `party_i − 1`. -/
def round2Successor (self : Round2) (received_decom : List KeyGenDecommitMessage1)
    (vss_result : VerifiableSS × List Scalar) : Round3 :=
  ⟨self.keys,
   received_decom.map (fun d => d.y_i),
   self.received_comm,
   vss_result.1,
   vss_result.2.getD (self.party_i - 1) 0,
   self.party_i, self.t, self.n⟩

/-- The P2P messages `Round2::proceed` pushes (rounds.rs, lines 139–153): one
per share index `k` with `k + 1 ≠ party_i`, in index order. -/
def round2Msgs (env : Env) (self : Round2) (vss_result : VerifiableSS × List Scalar) :
    List (Msg (VerifiableSS × Bytes)) :=
  ((List.range vss_result.2.length).filter (fun k => k + 1 ≠ self.party_i)).map
    (round2Msg env self vss_result.1 vss_result.2)

/-- Embedding of `Round2::proceed` (rounds.rs, lines 112–168): verify all commitments and
proofs (fatal `Round2VerifyCommitments` on failure), run Feldman VSS, P2P-send
each peer its encrypted share (skipping the own index), and succeed with the
`Round3` state carrying the own share.  `none` models the panic of the
out-of-bounds indexing `received_comm[i]` / `vss_result.1[party_i − 1]`. -/
def Round2.proceed (env : Env) (self : Round2) (input : BroadcastMsgs KeyGenDecommitMessage1) :
    Option (Except ProceedError (Round3 × List (Msg (VerifiableSS × Bytes)))) :=
  let params : Parameters := ⟨self.t, self.n⟩
  let received_decom := input.into_vec_including_me self.decom
  match env.phase1_verify_com_phase3_verify_correct_key_verify_dlog_phase2_distribute
      self.keys params received_decom self.received_comm with
  | Except.error e => some (Except.error (ProceedError.Round2VerifyCommitments e))
  | Except.ok vss_result =>
    if vss_result.2.length ≤ self.received_comm.length ∧
        1 ≤ self.party_i ∧ self.party_i ≤ vss_result.2.length then
      some (Except.ok
        (round2Successor self received_decom vss_result, round2Msgs env self vss_result))
    else none

/-- Embedding of `Round2::is_expensive` (rounds.rs, lines 169–171). -/
def Round2.is_expensive (_ : Round2) : Bool := true

/-- The decrypted P2P message `Round3::proceed` rebuilds from a received
(sender, (vss, ciphertext bytes)) entry (rounds.rs, lines 207–217): decode the
bytes as a big integer, Paillier-decrypt with the own dk, and reduce the
plaintext into a scalar via `Scalar::from_bigint`. -/
def round3DecryptMsg (env : Env) (self : Round3) (p : Nat × (VerifiableSS × Bytes)) :
    Msg (VerifiableSS × Scalar) :=
  ⟨4, p.1, some self.party_i,
   (p.2.1, Scalar.from_bigint (env.paillier_decrypt self.keys.dk (BigInt.from_bytes p.2.2)))⟩

/-- The loop of `Round3::proceed` over the received messages: push each one
into the store, discarding the push result (`let _ = …push_msg(…)`). -/
def pushAll {T : Type} (st : P2PMsgsStore T) (l : List (Msg T)) : P2PMsgsStore T :=
  l.foldl (fun s m => (s.push_msg m).1) st

/-- The rebuilt store of decrypted shares in `Round3::proceed` (rounds.rs,
lines 204–220): push every decrypted message into a fresh `P2PMsgsStore`
(discarding each push result) and close it; `none` is the
`finish().unwrap()` panic. -/
def Round3.decryptedStore (env : Env) (self : Round3)
    (input : P2PMsgs (VerifiableSS × Bytes)) : Option (P2PMsgs (VerifiableSS × Scalar)) :=
  (pushAll (P2PMsgsStore.new (VerifiableSS × Scalar) self.party_i self.n)
    (input.into_iter_indexed.map (round3DecryptMsg env self))).finish

/-- The successor `Round4` state built at the end of `Round3::proceed`
(rounds.rs, lines 244–255). -/
def round3Successor (self : Round3) (sk_proof : SharedKeys × DLogProof)
    (vss_schemes : List VerifiableSS) : Round4 :=
  ⟨self.keys, self.y_vec, self.bc_vec, sk_proof.1, sk_proof.2, vss_schemes,
   self.party_i, self.t, self.n⟩

/-- Embedding of `Round3::proceed` (rounds.rs, lines 192–256): decrypt the received shares,
verify VSS consistency and assemble the own keypair (fatal
`Round3VerifyVssConstruct` on failure), broadcast the DLog proof of the own
share, and succeed with the `Round4` state. -/
def Round3.proceed (env : Env) (self : Round3) (input : P2PMsgs (VerifiableSS × Bytes)) :
    Option (Except ProceedError (Round4 × List (Msg DLogProof))) :=
  let params : Parameters := ⟨self.t, self.n⟩
  match Round3.decryptedStore env self input with
  | none => none
  | some decrypted =>
    let pairs := decrypted.into_vec_including_me (self.own_vss, self.own_share)
    let vss_schemes := pairs.map Prod.fst
    let party_shares := pairs.map Prod.snd
    match phase2_verify_vss_construct_keypair_phase3_pok_dlog
        params self.y_vec party_shares vss_schemes self.party_i with
    | Except.error e => some (Except.error (ProceedError.Round3VerifyVssConstruct e))
    | Except.ok sk_proof =>
      some (Except.ok
        (round3Successor self sk_proof vss_schemes,
         [⟨4, self.party_i, none, sk_proof.2⟩]))

/-- Embedding of `Round3::is_expensive` (rounds.rs, lines 257–259). -/
def Round3.is_expensive (_ : Round3) : Bool := true

/-- The terminal `LocalKey` assembled by `Round4::proceed` (rounds.rs, lines
296–326): `pk_vec` from the dlog proofs' public points, `paillier_key_vec` and
`h1_h2_n_tilde_vec` from the stored R0 commitments, `y_sum_s` as the left fold
of point addition over the tail of `y_vec` seeded with its head
(`split_at(1)`), and the own VSS scheme at index `party_i − 1`. -/
def round4LocalKey (self : Round4) (dlog_proofs : List DLogProof) : LocalKey where
  paillier_dk := self.keys.dk
  pk_vec := (List.range self.n).map (fun k => (dlog_proofs.getD k default).pk)
  keys_linear := self.shared_keys
  paillier_key_vec := (List.range self.n).map (fun k => (self.bc_vec.getD k default).e)
  y_sum_s := (self.y_vec.drop 1).foldl (· + ·) (self.y_vec.headD 0)
  h1_h2_n_tilde_vec := self.bc_vec.map (fun bc1 => bc1.dlog_statement)
  vss_scheme := self.vss_vec.getD (self.party_i - 1) default
  i := self.party_i
  t := self.t
  n := self.n

/-- Embedding of `Round4::proceed` (rounds.rs, lines 279–329): verify the aggregate DLog
proofs against the VSS commitments (fatal `Round4VerifyDLogProof` on failure)
and assemble the terminal `LocalKey`; no output sink exists on this transition.
`none` models the panics of `dlog_proofs[i]`, `bc_vec[i]`, `split_at(1)` on an
empty `y_vec`, and `vss_vec[party_i − 1]`. -/
def Round4.proceed (env : Env) (self : Round4) (input : BroadcastMsgs DLogProof) :
    Option (Except ProceedError LocalKey) :=
  let params : Parameters := ⟨self.t, self.n⟩
  let dlog_proofs := input.into_vec_including_me self.own_dlog_proof
  match env.verify_dlog_proofs_check_against_vss params dlog_proofs self.y_vec self.vss_vec with
  | Except.error e => some (Except.error (ProceedError.Round4VerifyDLogProof e))
  | Except.ok _ =>
    if self.n ≤ dlog_proofs.length ∧ self.n ≤ self.bc_vec.length ∧
        self.y_vec ≠ [] ∧ 1 ≤ self.party_i ∧ self.party_i ≤ self.vss_vec.length then
      some (Except.ok (round4LocalKey self dlog_proofs))
    else none

/-- Embedding of `Round4::is_expensive` (rounds.rs, lines 330–332). -/
def Round4.is_expensive (_ : Round4) : Bool := true

/-! ## The keygen machine as one sum type (spec §4.6) -/

/-- The five keygen states, as one sum type (spec §9 design note (a)). -/
inductive KeygenState where
  | r0 (s : Round0)
  | r1 (s : Round1)
  | r2 (s : Round2)
  | r3 (s : Round3)
  | r4 (s : Round4)
deriving DecidableEq

/-- The per-round inbound message store; `Round0` takes none. -/
inductive KeygenInput where
  | r0
  | r1 (input : BroadcastMsgs KeyGenBroadcastMessage1)
  | r2 (input : BroadcastMsgs KeyGenDecommitMessage1)
  | r3 (input : P2PMsgs (VerifiableSS × Bytes))
  | r4 (input : BroadcastMsgs DLogProof)
deriving DecidableEq

/-- The wire message bodies of the four rounds (spec §6). -/
inductive KeygenMsgBody where
  | bc1 (b : KeyGenBroadcastMessage1)
  | decom (b : KeyGenDecommitMessage1)
  | vssEnc (b : VerifiableSS × Bytes)
  | dlog (b : DLogProof)
deriving DecidableEq

/-- Inject a round's typed outbound messages into the common body type. -/
def liftMsgs {B : Type} (f : B → KeygenMsgBody) (l : List (Msg B)) : List (Msg KeygenMsgBody) :=
  l.map (fun m => ⟨m.round, m.sender, m.receiver, f m.body⟩)

/-- One transition of the keygen machine: the successor state (or the terminal
`LocalKey`) paired with the outbound messages the round pushed into its sink.
`none` is a panic, or a state/input round mismatch (which the runtime never
produces). `Round4::proceed` is the one transition without an output sink, so
its branch carries no messages. -/
def keygenTransition (env : Env) :
    KeygenState → KeygenInput →
    Option (Except ProceedError ((KeygenState ⊕ LocalKey) × List (Msg KeygenMsgBody)))
  | KeygenState.r0 s, KeygenInput.r0 =>
    match Round0.proceed env s with
    | Except.error e => some (Except.error e)
    | Except.ok r =>
      some (Except.ok (Sum.inl (KeygenState.r1 r.1), liftMsgs KeygenMsgBody.bc1 r.2))
  | KeygenState.r1 s, KeygenInput.r1 input =>
    match Round1.proceed s input with
    | Except.error e => some (Except.error e)
    | Except.ok r =>
      some (Except.ok (Sum.inl (KeygenState.r2 r.1), liftMsgs KeygenMsgBody.decom r.2))
  | KeygenState.r2 s, KeygenInput.r2 input =>
    match Round2.proceed env s input with
    | none => none
    | some (Except.error e) => some (Except.error e)
    | some (Except.ok r) =>
      some (Except.ok (Sum.inl (KeygenState.r3 r.1), liftMsgs KeygenMsgBody.vssEnc r.2))
  | KeygenState.r3 s, KeygenInput.r3 input =>
    match Round3.proceed env s input with
    | none => none
    | some (Except.error e) => some (Except.error e)
    | some (Except.ok r) =>
      some (Except.ok (Sum.inl (KeygenState.r4 r.1), liftMsgs KeygenMsgBody.dlog r.2))
  | KeygenState.r4 s, KeygenInput.r4 input =>
    match Round4.proceed env s input with
    | none => none
    | some (Except.error e) => some (Except.error e)
    | some (Except.ok lk) => some (Except.ok (Sum.inr lk, []))
  | _, _ => none

/-! ## Concrete fixtures

Small closed values (n = 2 parties, threshold 1, party index 1) used to
evaluate the transitions on explicit inputs. -/

def testKeys : Keys := ⟨0, 0, ⟨0, 0⟩, ⟨0⟩, 1⟩

def testBC : KeyGenBroadcastMessage1 := ⟨0, ⟨0⟩, ⟨0, 0, 0⟩, 0, 0⟩

def testDecom : KeyGenDecommitMessage1 := ⟨0, 0⟩

def testVss : VerifiableSS := ⟨1, 2, [0]⟩

/-- An environment whose verifications all succeed, with identity Paillier
encryption and a fixed two-share VSS result. -/
def testEnv : Env where
  keys_create := fun j => { testKeys with party_index := j }
  phase1_broadcast := fun _ => (testBC, testDecom)
  phase1_verify_com_phase3_verify_correct_key_verify_dlog_phase2_distribute :=
    fun _ _ _ _ => Except.ok (testVss, [0, 0])
  paillier_encrypt := fun _ v => v
  paillier_decrypt := fun _ v => v
  verify_dlog_proofs_check_against_vss := fun _ _ _ _ => Except.ok ()

/-- An environment whose verifications all fail with a fixed error detail. -/
def testEnvErr : Env :=
  { testEnv with
    phase1_verify_com_phase3_verify_correct_key_verify_dlog_phase2_distribute :=
      fun _ _ _ _ => Except.error ⟨"bad", [2]⟩
    verify_dlog_proofs_check_against_vss := fun _ _ _ _ => Except.error ⟨"bad", [2]⟩ }

def testRound2 : Round2 := ⟨testKeys, [testBC, testBC], testDecom, 1, 1, 2⟩

def testDecomInput : BroadcastMsgs KeyGenDecommitMessage1 := ⟨1, [⟨0, 0⟩]⟩

def testRound3 : Round3 := ⟨testKeys, [0, 0], [testBC, testBC], testVss, 0, 1, 1, 2⟩

/-- P2P input from party 2 whose ciphertext decrypts (under `testEnv`) to 5. -/
def testP2PInput : P2PMsgs (VerifiableSS × Bytes) := ⟨1, [(2, (testVss, ⟨5⟩))]⟩

/-- P2P input from party 2 whose ciphertext decrypts (under `testEnv`) to 0,
consistent with `testVss`. -/
def testP2PInputZero : P2PMsgs (VerifiableSS × Bytes) := ⟨1, [(2, (testVss, ⟨0⟩))]⟩

/-- P2P input whose single message has the out-of-range sender index 3. -/
def testP2PInputBad : P2PMsgs (VerifiableSS × Bytes) := ⟨1, [(3, (testVss, ⟨5⟩))]⟩

def testRound4 : Round4 :=
  ⟨testKeys, [1, 2], [testBC, testBC], ⟨0, 0⟩, ⟨0, 0, 0⟩, [testVss, testVss], 1, 1, 2⟩

/-- Embedding of `testRound4` with an empty decommitment-point vector. -/
def testRound4Empty : Round4 :=
  ⟨testKeys, [], [testBC, testBC], ⟨0, 0⟩, ⟨0, 0, 0⟩, [testVss, testVss], 1, 1, 2⟩

def testProofInput : BroadcastMsgs DLogProof := ⟨1, [⟨3, 0, 0⟩]⟩

/-- The `Round4` state `Round3.proceed testEnv testRound3 testP2PInputZero`
produces. -/
def testRound4z : Round4 :=
  ⟨testKeys, [0, 0], [testBC, testBC], ⟨0, 0⟩, ⟨0, 0, 0⟩, [testVss, testVss], 1, 1, 2⟩

/-- The `LocalKey` that `Round4.proceed testEnv testRound4 testProofInput`
produces. -/
def testLocalKey : LocalKey :=
  { paillier_dk := ⟨0, 0⟩, pk_vec := [0, 3], keys_linear := ⟨0, 0⟩,
    paillier_key_vec := [⟨0⟩, ⟨0⟩], y_sum_s := 3,
    h1_h2_n_tilde_vec := [⟨0, 0, 0⟩, ⟨0, 0, 0⟩], vss_scheme := testVss,
    i := 1, t := 1, n := 2 }

/-- The `LocalKey` that `Round4.proceed testEnv testRound4z testProofInput`
produces. -/
def testLocalKeyZ : LocalKey :=
  { paillier_dk := ⟨0, 0⟩, pk_vec := [0, 3], keys_linear := ⟨0, 0⟩,
    paillier_key_vec := [⟨0⟩, ⟨0⟩], y_sum_s := 0,
    h1_h2_n_tilde_vec := [⟨0, 0, 0⟩, ⟨0, 0, 0⟩], vss_scheme := testVss,
    i := 1, t := 1, n := 2 }

/-! ## Helper lemmas -/

theorem foldl_add_eq_add_sum {M : Type} [AddCommMonoid M] (l : List M) (a : M) :
    l.foldl (· + ·) a = a + l.sum := by
  induction l generalizing a with
  | nil => simp
  | cons x xs ih => rw [List.foldl_cons, ih, List.sum_cons, add_assoc]

theorem length_filter_range_ne (n i : Nat) (h1 : 1 ≤ i) (h2 : i ≤ n) :
    ((List.range n).filter (fun k => k + 1 ≠ i)).length = n - 1 := by
  induction n with
  | zero => omega
  | succ m ih =>
    rw [List.range_succ, List.filter_append, List.length_append]
    by_cases hm : m + 1 = i
    · have hall : (List.range m).filter (fun k => k + 1 ≠ i) = List.range m := by
        apply List.filter_eq_self.mpr
        intro a ha
        simp only [List.mem_range] at ha
        simp only [decide_eq_true_eq]
        omega
      have hone : (([m] : List Nat).filter (fun k => k + 1 ≠ i)).length = 0 := by
        simp [hm]
      rw [hall, hone, List.length_range]
      omega
    · have hrec := ih (by omega)
      have hone : (([m] : List Nat).filter (fun k => k + 1 ≠ i)).length = 1 := by
        simp [hm]
      rw [hrec, hone]
      omega

theorem le_length_filter_range_ne (n i : Nat) :
    n - 1 ≤ ((List.range n).filter (fun k => k + 1 ≠ i)).length := by
  by_cases h : 1 ≤ i ∧ i ≤ n
  · rw [length_filter_range_ne n i h.1 h.2]
  · have hall : (List.range n).filter (fun k => k + 1 ≠ i) = List.range n := by
      apply List.filter_eq_self.mpr
      intro a ha
      simp only [List.mem_range] at ha
      simp only [decide_eq_true_eq]
      omega
    rw [hall, List.length_range]
    omega

theorem getD_range_map {α : Type} (f : Nat → α) (n k : Nat) (d : α) (h : k < n) :
    (((List.range n).map f).getD k d) = f k := by
  rw [List.getD_eq_getElem?_getD, List.getElem?_map, List.getElem?_range h]
  rfl

theorem getD_map_of_lt {α β : Type} (f : α → β) (l : List α) (k : Nat) (d : β) (d' : α)
    (h : k < l.length) :
    (l.map f).getD k d = f (l.getD k d') := by
  rw [List.getD_eq_getElem?_getD, List.getElem?_map, List.getD_eq_getElem?_getD,
    List.getElem?_eq_getElem h]
  rfl

theorem getD_insert_own {T : Type} (pre post : List T) (own d : T) (k : Nat)
    (h : pre.length = k) :
    (pre ++ own :: post).getD k d = own := by
  rw [List.getD_eq_getElem?_getD, List.getElem?_append_right (by omega)]
  simp [h]

/-! ### P2P store lemmas -/

theorem pushAll_cons {T : Type} (st : P2PMsgsStore T) (a : Msg T) (l : List (Msg T)) :
    pushAll st (a :: l) = pushAll ((st.push_msg a).1) l := rfl

theorem push_msg_pos {T : Type} (st : P2PMsgsStore T) (m : Msg T)
    (h : (1 ≤ m.sender ∧ m.sender ≤ st.n ∧ m.sender ≠ st.party_i) ∧
      (st.slots m.sender).isNone = true) :
    (st.push_msg m).1 =
      ⟨st.party_i, st.n, fun k => if k = m.sender then some m.body else st.slots k⟩ := by
  unfold P2PMsgsStore.push_msg
  rw [if_pos h]

theorem push_msg_neg {T : Type} (st : P2PMsgsStore T) (m : Msg T)
    (h : ¬((1 ≤ m.sender ∧ m.sender ≤ st.n ∧ m.sender ≠ st.party_i) ∧
      (st.slots m.sender).isNone = true)) :
    (st.push_msg m).1 = st := by
  unfold P2PMsgsStore.push_msg
  rw [if_neg h]

theorem push_msg_party_i {T : Type} (st : P2PMsgsStore T) (m : Msg T) :
    (st.push_msg m).1.party_i = st.party_i := by
  unfold P2PMsgsStore.push_msg
  split <;> rfl

theorem push_msg_n {T : Type} (st : P2PMsgsStore T) (m : Msg T) :
    (st.push_msg m).1.n = st.n := by
  unfold P2PMsgsStore.push_msg
  split <;> rfl

theorem push_msg_slots_other {T : Type} (st : P2PMsgsStore T) (m : Msg T) (j : Nat)
    (hj : j ≠ m.sender) :
    (st.push_msg m).1.slots j = st.slots j := by
  unfold P2PMsgsStore.push_msg
  split
  · simp [hj]
  · rfl

theorem pushAll_party_i {T : Type} :
    ∀ (l : List (Msg T)) (st : P2PMsgsStore T), (pushAll st l).party_i = st.party_i := by
  intro l
  induction l with
  | nil => intro st; rfl
  | cons a rest ih =>
    intro st
    rw [pushAll_cons]
    exact (ih ((st.push_msg a).1)).trans (push_msg_party_i st a)

theorem pushAll_n {T : Type} :
    ∀ (l : List (Msg T)) (st : P2PMsgsStore T), (pushAll st l).n = st.n := by
  intro l
  induction l with
  | nil => intro st; rfl
  | cons a rest ih =>
    intro st
    rw [pushAll_cons]
    exact (ih ((st.push_msg a).1)).trans (push_msg_n st a)

theorem pushAll_slots_not_mem {T : Type} :
    ∀ (l : List (Msg T)) (st : P2PMsgsStore T) (j : Nat),
      (∀ m ∈ l, m.sender ≠ j) → (pushAll st l).slots j = st.slots j := by
  intro l
  induction l with
  | nil => intro st j _; rfl
  | cons a rest ih =>
    intro st j hj
    rw [pushAll_cons]
    have h1 : (st.push_msg a).1.slots j = st.slots j :=
      push_msg_slots_other st a j (fun h => hj a (List.mem_cons_self a rest) h.symm)
    exact (ih ((st.push_msg a).1) j (fun m hm => hj m (List.mem_cons_of_mem a hm))).trans h1

theorem pushAll_slots_mem {T : Type} :
    ∀ (l : List (Msg T)) (st : P2PMsgsStore T) (m : Msg T),
      m ∈ l → (l.map Msg.sender).Nodup →
      (1 ≤ m.sender ∧ m.sender ≤ st.n ∧ m.sender ≠ st.party_i) →
      st.slots m.sender = none →
      (pushAll st l).slots m.sender = some m.body := by
  intro l
  induction l with
  | nil => intro st m hm; cases hm
  | cons a rest ih =>
    intro st m hm hnd hv he
    rw [List.map_cons, List.nodup_cons] at hnd
    rw [pushAll_cons]
    rcases List.mem_cons.mp hm with rfl | hmr
    · have hpush := push_msg_pos st m ⟨hv, by rw [he]; rfl⟩
      have hrest : ∀ m' ∈ rest, m'.sender ≠ m.sender := by
        intro m' hm' h
        exact hnd.1 (h ▸ List.mem_map_of_mem Msg.sender hm')
      rw [pushAll_slots_not_mem rest ((st.push_msg m).1) m.sender hrest, hpush]
      simp
    · have hne : a.sender ≠ m.sender := by
        intro h
        exact hnd.1 (h ▸ List.mem_map_of_mem Msg.sender hmr)
      have h1 : (st.push_msg a).1.slots m.sender = none :=
        (push_msg_slots_other st a m.sender (fun h => hne h.symm)).trans he
      refine ih ((st.push_msg a).1) m hmr hnd.2 ?_ h1
      rw [push_msg_n, push_msg_party_i]
      exact hv

theorem pushAll_slots_isSome {T : Type} :
    ∀ (l : List (Msg T)) (st : P2PMsgsStore T) (j : Nat),
      ((pushAll st l).slots j).isSome = true →
      (st.slots j).isSome = true ∨
        ∃ m ∈ l, m.sender = j ∧ 1 ≤ j ∧ j ≤ st.n ∧ j ≠ st.party_i := by
  intro l
  induction l with
  | nil => intro st j h; exact Or.inl h
  | cons a rest ih =>
    intro st j h
    rw [pushAll_cons] at h
    rcases ih ((st.push_msg a).1) j h with h1 | ⟨m, hm, hj, hb⟩
    · by_cases hacc : (1 ≤ a.sender ∧ a.sender ≤ st.n ∧ a.sender ≠ st.party_i) ∧
          (st.slots a.sender).isNone = true
      · rw [push_msg_pos st a hacc] at h1
        by_cases hja : j = a.sender
        · subst hja
          exact Or.inr ⟨a, List.mem_cons_self a rest, rfl, hacc.1.1, hacc.1.2.1, hacc.1.2.2⟩
        · simp only [hja, if_false] at h1
          exact Or.inl h1
      · rw [push_msg_neg st a hacc] at h1
        exact Or.inl h1
    · rw [push_msg_n, push_msg_party_i] at hb
      exact Or.inr ⟨m, List.mem_cons_of_mem a hm, hj, hb⟩

theorem mem_required {T : Type} (st : P2PMsgsStore T) (j : Nat) :
    j ∈ st.required ↔ (1 ≤ j ∧ j ≤ st.n ∧ j ≠ st.party_i) := by
  unfold P2PMsgsStore.required
  simp only [List.mem_filter, List.mem_map, List.mem_range, decide_eq_true_eq]
  constructor
  · rintro ⟨⟨k, hk, hkj⟩, hne⟩
    omega
  · rintro ⟨h1, h2, h3⟩
    exact ⟨⟨j - 1, by omega, by omega⟩, h3⟩

theorem required_nodup {T : Type} (st : P2PMsgsStore T) : st.required.Nodup := by
  unfold P2PMsgsStore.required
  exact ((List.nodup_range st.n).map (fun a b h => by omega)).filter _

theorem required_length_ge {T : Type} (st : P2PMsgsStore T) :
    st.n - 1 ≤ st.required.length := by
  unfold P2PMsgsStore.required
  rw [List.filter_map, List.length_map]
  simpa [Function.comp] using le_length_filter_range_ne st.n st.party_i


/-! ### Transition characterization lemmas -/

theorem round4_proceed_ok_inv (env : Env) (self : Round4) (input : BroadcastMsgs DLogProof)
    (lk : LocalKey) (h : Round4.proceed env self input = some (Except.ok lk)) :
    (∃ u, env.verify_dlog_proofs_check_against_vss ⟨self.t, self.n⟩
        (input.into_vec_including_me self.own_dlog_proof) self.y_vec self.vss_vec =
        Except.ok u) ∧
    (self.n ≤ (input.into_vec_including_me self.own_dlog_proof).length ∧
      self.n ≤ self.bc_vec.length ∧ self.y_vec ≠ [] ∧
      1 ≤ self.party_i ∧ self.party_i ≤ self.vss_vec.length) ∧
    lk = round4LocalKey self (input.into_vec_including_me self.own_dlog_proof) := by
  simp only [Round4.proceed] at h
  split at h
  next e heq => simp at h
  next u heq =>
    split at h
    next hg => exact ⟨⟨u, heq⟩, hg, (Except.ok.inj (Option.some.inj h)).symm⟩
    next hg => simp at h

theorem round4_proceed_ok (env : Env) (self : Round4) (input : BroadcastMsgs DLogProof)
    (u : Unit)
    (hv : env.verify_dlog_proofs_check_against_vss ⟨self.t, self.n⟩
      (input.into_vec_including_me self.own_dlog_proof) self.y_vec self.vss_vec = Except.ok u)
    (hg : self.n ≤ (input.into_vec_including_me self.own_dlog_proof).length ∧
      self.n ≤ self.bc_vec.length ∧ self.y_vec ≠ [] ∧
      1 ≤ self.party_i ∧ self.party_i ≤ self.vss_vec.length) :
    Round4.proceed env self input =
      some (Except.ok (round4LocalKey self (input.into_vec_including_me self.own_dlog_proof))) := by
  simp only [Round4.proceed, hv]
  rw [if_pos hg]

theorem round4_proceed_none (env : Env) (self : Round4) (input : BroadcastMsgs DLogProof)
    (u : Unit)
    (hv : env.verify_dlog_proofs_check_against_vss ⟨self.t, self.n⟩
      (input.into_vec_including_me self.own_dlog_proof) self.y_vec self.vss_vec = Except.ok u)
    (hg : ¬(self.n ≤ (input.into_vec_including_me self.own_dlog_proof).length ∧
      self.n ≤ self.bc_vec.length ∧ self.y_vec ≠ [] ∧
      1 ≤ self.party_i ∧ self.party_i ≤ self.vss_vec.length)) :
    Round4.proceed env self input = none := by
  simp only [Round4.proceed, hv]
  rw [if_neg hg]

theorem round4_proceed_error_iff (env : Env) (self : Round4) (input : BroadcastMsgs DLogProof)
    (pe : ProceedError) :
    Round4.proceed env self input = some (Except.error pe) ↔
    ∃ e, pe = ProceedError.Round4VerifyDLogProof e ∧
      env.verify_dlog_proofs_check_against_vss ⟨self.t, self.n⟩
        (input.into_vec_including_me self.own_dlog_proof) self.y_vec self.vss_vec =
        Except.error e := by
  simp only [Round4.proceed]
  split
  next e heq =>
    rw [heq]
    simp only [Option.some.injEq, Except.error.injEq]
    constructor
    · intro h
      exact ⟨e, h.symm, rfl⟩
    · rintro ⟨e2, rfl, he2⟩
      rw [he2]
  next u heq =>
    rw [heq]
    constructor
    · intro h
      split at h <;> simp at h
    · rintro ⟨e2, rfl, he2⟩
      cases he2

theorem round2_proceed_ok_inv (env : Env) (self : Round2)
    (input : BroadcastMsgs KeyGenDecommitMessage1) (r3 : Round3)
    (msgs : List (Msg (VerifiableSS × Bytes)))
    (h : Round2.proceed env self input = some (Except.ok (r3, msgs))) :
    ∃ vss_result,
      env.phase1_verify_com_phase3_verify_correct_key_verify_dlog_phase2_distribute
        self.keys ⟨self.t, self.n⟩ (input.into_vec_including_me self.decom)
        self.received_comm = Except.ok vss_result ∧
      (vss_result.2.length ≤ self.received_comm.length ∧
        1 ≤ self.party_i ∧ self.party_i ≤ vss_result.2.length) ∧
      r3 = round2Successor self (input.into_vec_including_me self.decom) vss_result ∧
      msgs = round2Msgs env self vss_result := by
  simp only [Round2.proceed] at h
  split at h
  next e heq => simp at h
  next v heq =>
    split at h
    next hg =>
      have hp := Except.ok.inj (Option.some.inj h)
      exact ⟨v, heq, hg, (congrArg Prod.fst hp).symm, (congrArg Prod.snd hp).symm⟩
    next hg => simp at h

theorem round2_proceed_ok (env : Env) (self : Round2)
    (input : BroadcastMsgs KeyGenDecommitMessage1) (vss_result : VerifiableSS × List Scalar)
    (hv : env.phase1_verify_com_phase3_verify_correct_key_verify_dlog_phase2_distribute
      self.keys ⟨self.t, self.n⟩ (input.into_vec_including_me self.decom)
      self.received_comm = Except.ok vss_result)
    (hg : vss_result.2.length ≤ self.received_comm.length ∧
      1 ≤ self.party_i ∧ self.party_i ≤ vss_result.2.length) :
    Round2.proceed env self input =
      some (Except.ok
        (round2Successor self (input.into_vec_including_me self.decom) vss_result,
         round2Msgs env self vss_result)) := by
  simp only [Round2.proceed, hv]
  rw [if_pos hg]

theorem round2_proceed_error_iff (env : Env) (self : Round2)
    (input : BroadcastMsgs KeyGenDecommitMessage1) (pe : ProceedError) :
    Round2.proceed env self input = some (Except.error pe) ↔
    ∃ e, pe = ProceedError.Round2VerifyCommitments e ∧
      env.phase1_verify_com_phase3_verify_correct_key_verify_dlog_phase2_distribute
        self.keys ⟨self.t, self.n⟩ (input.into_vec_including_me self.decom)
        self.received_comm = Except.error e := by
  simp only [Round2.proceed]
  split
  next e heq =>
    rw [heq]
    simp only [Option.some.injEq, Except.error.injEq]
    constructor
    · intro h
      exact ⟨e, h.symm, rfl⟩
    · rintro ⟨e2, rfl, he2⟩
      rw [he2]
  next v heq =>
    rw [heq]
    constructor
    · intro h
      split at h <;> simp at h
    · rintro ⟨e2, rfl, he2⟩
      cases he2

theorem round3_proceed_ok_inv (env : Env) (self : Round3)
    (input : P2PMsgs (VerifiableSS × Bytes)) (r4 : Round4) (msgs : List (Msg DLogProof))
    (h : Round3.proceed env self input = some (Except.ok (r4, msgs))) :
    ∃ dec sk_proof,
      Round3.decryptedStore env self input = some dec ∧
      phase2_verify_vss_construct_keypair_phase3_pok_dlog ⟨self.t, self.n⟩ self.y_vec
        ((dec.into_vec_including_me (self.own_vss, self.own_share)).map Prod.snd)
        ((dec.into_vec_including_me (self.own_vss, self.own_share)).map Prod.fst)
        self.party_i = Except.ok sk_proof ∧
      r4 = round3Successor self sk_proof
        ((dec.into_vec_including_me (self.own_vss, self.own_share)).map Prod.fst) ∧
      msgs = [⟨4, self.party_i, none, sk_proof.2⟩] := by
  simp only [Round3.proceed] at h
  split at h
  next heq => simp at h
  next dec heq =>
    split at h
    next e heq2 => simp at h
    next sk heq2 =>
      have hp := Except.ok.inj (Option.some.inj h)
      exact ⟨dec, sk, heq, heq2, (congrArg Prod.fst hp).symm, (congrArg Prod.snd hp).symm⟩

theorem round3_proceed_ok (env : Env) (self : Round3)
    (input : P2PMsgs (VerifiableSS × Bytes)) (dec : P2PMsgs (VerifiableSS × Scalar))
    (sk_proof : SharedKeys × DLogProof)
    (hd : Round3.decryptedStore env self input = some dec)
    (hs : phase2_verify_vss_construct_keypair_phase3_pok_dlog ⟨self.t, self.n⟩ self.y_vec
      ((dec.into_vec_including_me (self.own_vss, self.own_share)).map Prod.snd)
      ((dec.into_vec_including_me (self.own_vss, self.own_share)).map Prod.fst)
      self.party_i = Except.ok sk_proof) :
    Round3.proceed env self input =
      some (Except.ok
        (round3Successor self sk_proof
          ((dec.into_vec_including_me (self.own_vss, self.own_share)).map Prod.fst),
         [⟨4, self.party_i, none, sk_proof.2⟩])) := by
  simp only [Round3.proceed, hd, hs]

theorem round3_proceed_none_iff (env : Env) (self : Round3)
    (input : P2PMsgs (VerifiableSS × Bytes)) :
    Round3.proceed env self input = none ↔ Round3.decryptedStore env self input = none := by
  simp only [Round3.proceed]
  split
  next heq => simp [heq]
  next dec heq =>
    rw [heq]
    split <;> simp

theorem round3_proceed_error_iff (env : Env) (self : Round3)
    (input : P2PMsgs (VerifiableSS × Bytes)) (pe : ProceedError) :
    Round3.proceed env self input = some (Except.error pe) ↔
    ∃ e dec, pe = ProceedError.Round3VerifyVssConstruct e ∧
      Round3.decryptedStore env self input = some dec ∧
      phase2_verify_vss_construct_keypair_phase3_pok_dlog ⟨self.t, self.n⟩ self.y_vec
        ((dec.into_vec_including_me (self.own_vss, self.own_share)).map Prod.snd)
        ((dec.into_vec_including_me (self.own_vss, self.own_share)).map Prod.fst)
        self.party_i = Except.error e := by
  simp only [Round3.proceed]
  split
  next heq => simp [heq]
  next dec heq =>
    rw [heq]
    split
    next e heq2 =>
      simp only [Option.some.injEq, Except.error.injEq]
      constructor
      · intro h
        exact ⟨e, dec, h.symm, rfl, heq2⟩
      · rintro ⟨e2, dec2, rfl, hdec2, he2⟩
        have hdd : dec2 = dec := hdec2.symm
        subst hdd
        rw [heq2] at he2
        rw [Except.error.inj he2]
    next sk heq2 =>
      constructor
      · intro h
        simp at h
      · rintro ⟨e2, dec2, rfl, hdec2, he2⟩
        have : dec2 = dec := Option.some.inj hdec2.symm
        subst this
        rw [heq2] at he2
        cases he2

/-! ## Claims -/

/-- C8: for every round state value, `is_expensive()` returns true for Round0,
Round2, Round3 and Round4, and false for Round1. -/
theorem claim_is_expensive_per_round :
    ∀ (r0 : Round0) (r1 : Round1) (r2 : Round2) (r3 : Round3) (r4 : Round4),
      r0.is_expensive = true ∧ r1.is_expensive = false ∧ r2.is_expensive = true ∧
      r3.is_expensive = true ∧ r4.is_expensive = true :=
  fun _ _ _ _ _ => ⟨rfl, rfl, rfl, rfl, rfl⟩

/-- C3: every successful `Round4::proceed` with a length-n decommitment point
vector `y_vec` yields a `LocalKey` whose `y_sum_s` is the sum `y_1 + … + y_n`
of those points, and `LocalKey::public_key()` returns exactly `y_sum_s`. -/
theorem claim_round4_y_sum (env : Env) (self : Round4) (input : BroadcastMsgs DLogProof)
    (lk : LocalKey) (hlen : self.y_vec.length = self.n)
    (h : Round4.proceed env self input = some (Except.ok lk)) :
    lk.y_sum_s = self.y_vec.sum ∧ lk.public_key = lk.y_sum_s := by
  obtain ⟨-, hg, rfl⟩ := round4_proceed_ok_inv env self input lk h
  refine ⟨?_, rfl⟩
  obtain ⟨-, -, hne, -, -⟩ := hg
  show (self.y_vec.drop 1).foldl (· + ·) (self.y_vec.headD 0) = self.y_vec.sum
  cases hy : self.y_vec with
  | nil => exact absurd hy hne
  | cons a rest =>
    rw [List.drop_succ_cons, List.drop_zero, List.headD_cons, List.sum_cons]
    exact foldl_add_eq_add_sum rest a

/-- C3 witness: a concrete successful `Round4::proceed` with n = 2. -/
theorem claim_round4_y_sum_witness :
    (testRound4.y_vec.length = testRound4.n ∧
      Round4.proceed testEnv testRound4 testProofInput = some (Except.ok testLocalKey)) ∧
    (testLocalKey.y_sum_s = testRound4.y_vec.sum ∧
      testLocalKey.public_key = testLocalKey.y_sum_s) :=
  ⟨⟨by decide, by decide⟩,
   claim_round4_y_sum testEnv testRound4 testProofInput testLocalKey (by decide) (by decide)⟩

/-- C7: `Round4::proceed` emits no outbound messages — its transition in the
keygen machine carries an empty message list, and its only effect is the
terminal `LocalKey` (or a `ProceedError`); unlike rounds 0–3 it takes no
output sink. -/
theorem claim_round4_no_outbound (env : Env) (s : Round4) (inp : KeygenInput)
    (res : (KeygenState ⊕ LocalKey) × List (Msg KeygenMsgBody))
    (h : keygenTransition env (KeygenState.r4 s) inp = some (Except.ok res)) :
    res.2 = [] ∧ ∃ lk input, inp = KeygenInput.r4 input ∧ res.1 = Sum.inr lk ∧
      Round4.proceed env s input = some (Except.ok lk) := by
  cases inp with
  | r4 input =>
    simp only [keygenTransition] at h
    split at h
    next heq => simp at h
    next e heq => simp at h
    next lk heq =>
      have hres := Except.ok.inj (Option.some.inj h)
      exact ⟨by rw [← hres], lk, input, rfl, by rw [← hres], heq⟩
  | r0 => simp [keygenTransition] at h
  | r1 input => simp [keygenTransition] at h
  | r2 input => simp [keygenTransition] at h
  | r3 input => simp [keygenTransition] at h

/-- C7 witness: the concrete Round4 transition of the machine. -/
theorem claim_round4_no_outbound_witness :
    keygenTransition testEnv (KeygenState.r4 testRound4) (KeygenInput.r4 testProofInput) =
      some (Except.ok
        ((Sum.inr testLocalKey, []) : (KeygenState ⊕ LocalKey) × List (Msg KeygenMsgBody))) ∧
    (((Sum.inr testLocalKey, []) :
        (KeygenState ⊕ LocalKey) × List (Msg KeygenMsgBody)).2 = [] ∧
      ∃ lk input, KeygenInput.r4 testProofInput = KeygenInput.r4 input ∧
        ((Sum.inr testLocalKey, []) :
          (KeygenState ⊕ LocalKey) × List (Msg KeygenMsgBody)).1 = Sum.inr lk ∧
        Round4.proceed testEnv testRound4 input = some (Except.ok lk)) :=
  ⟨by decide,
   claim_round4_no_outbound testEnv testRound4 (KeygenInput.r4 testProofInput)
     ((Sum.inr testLocalKey, []) : (KeygenState ⊕ LocalKey) × List (Msg KeygenMsgBody))
     (by decide)⟩

/-- C4: the only errors the transitions can return are the three round-bound
`ProceedError` kinds — `Round2::proceed` errors exactly with
`Round2VerifyCommitments` and exactly when the combined
commitment/correct-key/h1h2 verification fails, `Round3::proceed` exactly with
`Round3VerifyVssConstruct` when the VSS consistency check fails,
`Round4::proceed` exactly with `Round4VerifyDLogProof` when the aggregate
dlog-proof check fails; `Round0::proceed` and `Round1::proceed` always return
`Ok`; and `is_critical()` is true for every `ProceedError`. -/
theorem claim_proceed_error_taxonomy :
    (∀ (env : Env) (s : Round0), ∃ r, Round0.proceed env s = Except.ok r) ∧
    (∀ (s : Round1) (input : BroadcastMsgs KeyGenBroadcastMessage1),
      ∃ r, Round1.proceed s input = Except.ok r) ∧
    (∀ (env : Env) (s : Round2) (input : BroadcastMsgs KeyGenDecommitMessage1)
      (pe : ProceedError),
      Round2.proceed env s input = some (Except.error pe) ↔
      ∃ e, pe = ProceedError.Round2VerifyCommitments e ∧
        env.phase1_verify_com_phase3_verify_correct_key_verify_dlog_phase2_distribute
          s.keys ⟨s.t, s.n⟩ (input.into_vec_including_me s.decom) s.received_comm =
          Except.error e) ∧
    (∀ (env : Env) (s : Round3) (input : P2PMsgs (VerifiableSS × Bytes)) (pe : ProceedError),
      Round3.proceed env s input = some (Except.error pe) ↔
      ∃ e dec, pe = ProceedError.Round3VerifyVssConstruct e ∧
        Round3.decryptedStore env s input = some dec ∧
        phase2_verify_vss_construct_keypair_phase3_pok_dlog ⟨s.t, s.n⟩ s.y_vec
          ((dec.into_vec_including_me (s.own_vss, s.own_share)).map Prod.snd)
          ((dec.into_vec_including_me (s.own_vss, s.own_share)).map Prod.fst)
          s.party_i = Except.error e) ∧
    (∀ (env : Env) (s : Round4) (input : BroadcastMsgs DLogProof) (pe : ProceedError),
      Round4.proceed env s input = some (Except.error pe) ↔
      ∃ e, pe = ProceedError.Round4VerifyDLogProof e ∧
        env.verify_dlog_proofs_check_against_vss ⟨s.t, s.n⟩
          (input.into_vec_including_me s.own_dlog_proof) s.y_vec s.vss_vec =
          Except.error e) ∧
    (∀ pe : ProceedError, pe.is_critical = true) :=
  ⟨fun env s => ⟨_, rfl⟩,
   fun s input => ⟨_, rfl⟩,
   fun env s input pe => round2_proceed_error_iff env s input pe,
   fun env s input pe => round3_proceed_error_iff env s input pe,
   fun env s input pe => round4_proceed_error_iff env s input pe,
   fun _ => rfl⟩

/-- C4 witness: a failing verification yields exactly the round-2 error on a
concrete state, and a concrete error value is critical. -/
theorem claim_proceed_error_taxonomy_witness :
    Round2.proceed testEnvErr testRound2 testDecomInput =
      some (Except.error (ProceedError.Round2VerifyCommitments ⟨"bad", [2]⟩)) ∧
    (ProceedError.Round3VerifyVssConstruct ⟨"x", []⟩).is_critical = true :=
  ⟨(claim_proceed_error_taxonomy.2.2.1 testEnvErr testRound2 testDecomInput
      (ProceedError.Round2VerifyCommitments ⟨"bad", [2]⟩)).mpr ⟨⟨"bad", [2]⟩, rfl, by decide⟩,
   claim_proceed_error_taxonomy.2.2.2.2.2 (ProceedError.Round3VerifyVssConstruct ⟨"x", []⟩)⟩

theorem into_vec_length {T : Type} (b : BroadcastMsgs T) (own : T) :
    (b.into_vec_including_me own).length = b.msgs.length + 1 := by
  unfold BroadcastMsgs.into_vec_including_me
  rw [List.length_append, List.length_cons, List.length_take, List.length_drop]
  omega

/-- C5: a successful `Round4::proceed` over delivered length-n vectors yields a
`LocalKey` with `|pk_vec| = |paillier_key_vec| = |h1_h2_n_tilde_vec| = n`,
`pk_vec[j−1] = dlog_proofs[j−1].pk`, `paillier_key_vec[j−1] = bc_vec[j−1].e`
and `h1_h2_n_tilde_vec[j−1] = bc_vec[j−1].dlog_statement` for every j ∈ [1,n]. -/
theorem claim_round4_localkey_vectors (env : Env) (self : Round4)
    (input : BroadcastMsgs DLogProof) (lk : LocalKey)
    (hin : input.msgs.length + 1 = self.n)
    (hbc : self.bc_vec.length = self.n)
    (hy : self.y_vec.length = self.n)
    (h : Round4.proceed env self input = some (Except.ok lk)) :
    lk.pk_vec.length = self.n ∧ lk.paillier_key_vec.length = self.n ∧
    lk.h1_h2_n_tilde_vec.length = self.n ∧
    ∀ j, 1 ≤ j → j ≤ self.n →
      lk.pk_vec.getD (j - 1) default =
        ((input.into_vec_including_me self.own_dlog_proof).getD (j - 1) default).pk ∧
      lk.paillier_key_vec.getD (j - 1) default = (self.bc_vec.getD (j - 1) default).e ∧
      lk.h1_h2_n_tilde_vec.getD (j - 1) default =
        (self.bc_vec.getD (j - 1) default).dlog_statement := by
  obtain ⟨-, -, rfl⟩ := round4_proceed_ok_inv env self input lk h
  refine ⟨?_, ?_, ?_, ?_⟩
  · show (((List.range self.n).map _).length) = self.n
    rw [List.length_map, List.length_range]
  · show (((List.range self.n).map _).length) = self.n
    rw [List.length_map, List.length_range]
  · show ((self.bc_vec.map _).length) = self.n
    rw [List.length_map, hbc]
  · intro j hj1 hj2
    have hjn : j - 1 < self.n := by omega
    refine ⟨?_, ?_, ?_⟩
    · show ((List.range self.n).map
          (fun k => ((input.into_vec_including_me self.own_dlog_proof).getD k default).pk)).getD
          (j - 1) default = _
      rw [getD_range_map _ _ _ _ hjn]
    · show ((List.range self.n).map
          (fun k => (self.bc_vec.getD k default).e)).getD (j - 1) default = _
      rw [getD_range_map _ _ _ _ hjn]
    · show (self.bc_vec.map (fun bc1 => bc1.dlog_statement)).getD (j - 1) default = _
      rw [getD_map_of_lt _ _ _ _ default (by omega)]

/-- C5 witness: the concrete n = 2 run, instantiated at j = 2. -/
theorem claim_round4_localkey_vectors_witness :
    (testProofInput.msgs.length + 1 = testRound4.n ∧
      testRound4.bc_vec.length = testRound4.n ∧
      testRound4.y_vec.length = testRound4.n ∧
      Round4.proceed testEnv testRound4 testProofInput = some (Except.ok testLocalKey)) ∧
    (testLocalKey.pk_vec.length = testRound4.n ∧
      testLocalKey.pk_vec.getD 1 default =
        ((testProofInput.into_vec_including_me testRound4.own_dlog_proof).getD 1 default).pk ∧
      testLocalKey.paillier_key_vec.getD 1 default =
        (testRound4.bc_vec.getD 1 default).e) :=
  ⟨⟨by decide, by decide, by decide, by decide⟩,
   ⟨(claim_round4_localkey_vectors testEnv testRound4 testProofInput testLocalKey
       (by decide) (by decide) (by decide) (by decide)).1,
    ((claim_round4_localkey_vectors testEnv testRound4 testProofInput testLocalKey
       (by decide) (by decide) (by decide) (by decide)).2.2.2 2 (by decide) (by decide)).1,
    ((claim_round4_localkey_vectors testEnv testRound4 testProofInput testLocalKey
       (by decide) (by decide) (by decide) (by decide)).2.2.2 2 (by decide) (by decide)).2.1⟩⟩

/-- C9: `Round4::proceed` is total under the length precondition (nonempty
`y_vec`; `dlog_proofs`, `bc_vec`, `y_vec`, `vss_vec` of length ≥ n; i ∈ [1,n]),
and with an empty `y_vec` or shorter vectors the transition panics (`none`)
rather than returning a `ProceedError`, once the verification step is past. -/
theorem claim_round4_panic_boundary :
    (∀ (env : Env) (self : Round4) (input : BroadcastMsgs DLogProof),
      self.y_vec ≠ [] →
      self.n ≤ input.msgs.length + 1 →
      self.n ≤ self.bc_vec.length →
      self.n ≤ self.y_vec.length →
      self.n ≤ self.vss_vec.length →
      1 ≤ self.party_i → self.party_i ≤ self.n →
      (Round4.proceed env self input).isSome = true) ∧
    (∀ (env : Env) (self : Round4) (input : BroadcastMsgs DLogProof) (u : Unit),
      env.verify_dlog_proofs_check_against_vss ⟨self.t, self.n⟩
        (input.into_vec_including_me self.own_dlog_proof) self.y_vec self.vss_vec =
        Except.ok u →
      (self.y_vec = [] ∨ (input.into_vec_including_me self.own_dlog_proof).length < self.n ∨
        self.bc_vec.length < self.n ∨ self.party_i = 0 ∨
        self.vss_vec.length < self.party_i) →
      Round4.proceed env self input = none) := by
  constructor
  · intro env self input hne hd hb hyl hvl hi1 hi2
    rcases hv : env.verify_dlog_proofs_check_against_vss ⟨self.t, self.n⟩
        (input.into_vec_including_me self.own_dlog_proof) self.y_vec self.vss_vec with e | u
    · rw [(round4_proceed_error_iff env self input
        (ProceedError.Round4VerifyDLogProof e)).mpr ⟨e, rfl, hv⟩]
      rfl
    · rw [round4_proceed_ok env self input u hv
        ⟨by rw [into_vec_length]; omega, hb, hne, hi1, by omega⟩]
      rfl
  · intro env self input u hv hbad
    refine round4_proceed_none env self input u hv ?_
    rintro ⟨hg1, hg2, hg3, hg4, hg5⟩
    rcases hbad with hb | hb | hb | hb | hb
    · exact hg3 hb
    · omega
    · omega
    · omega
    · omega

/-- C9 witness: the precondition holds on the concrete state (transition
total); with an empty `y_vec` and a passing verification it panics. -/
theorem claim_round4_panic_boundary_witness :
    ((testRound4.y_vec ≠ [] ∧ testRound4.n ≤ testProofInput.msgs.length + 1 ∧
        testRound4.n ≤ testRound4.bc_vec.length ∧ testRound4.n ≤ testRound4.y_vec.length ∧
        testRound4.n ≤ testRound4.vss_vec.length ∧
        1 ≤ testRound4.party_i ∧ testRound4.party_i ≤ testRound4.n) ∧
      (Round4.proceed testEnv testRound4 testProofInput).isSome = true) ∧
    (testEnv.verify_dlog_proofs_check_against_vss ⟨testRound4Empty.t, testRound4Empty.n⟩
        (testProofInput.into_vec_including_me testRound4Empty.own_dlog_proof)
        testRound4Empty.y_vec testRound4Empty.vss_vec = Except.ok () ∧
      Round4.proceed testEnv testRound4Empty testProofInput = none) :=
  ⟨⟨⟨by decide, by decide, by decide, by decide, by decide, by decide, by decide⟩,
    claim_round4_panic_boundary.1 testEnv testRound4 testProofInput (by decide) (by decide)
      (by decide) (by decide) (by decide) (by decide) (by decide)⟩,
   ⟨rfl,
    claim_round4_panic_boundary.2 testEnv testRound4Empty testProofInput () rfl
      (Or.inl rfl)⟩⟩

theorem phase2_ok_X_eq_pk (params : Parameters) (y_vec : List Point)
    (shares : List Scalar) (schemes : List VerifiableSS) (index : Nat)
    (sk : SharedKeys × DLogProof)
    (h : phase2_verify_vss_construct_keypair_phase3_pok_dlog params y_vec shares schemes
      index = Except.ok sk) :
    sk.1.X = sk.2.pk := by
  simp only [phase2_verify_vss_construct_keypair_phase3_pok_dlog] at h
  split at h
  next hempty =>
    rw [← Except.ok.inj h]
    rfl
  next hempty => cases h

/-- C6: the party's own additive public share stored in `keys_linear` (the
`shared_keys` produced by Round3) equals `pk_vec[i−1]`, the public point of the
party's own dlog proof merged at its canonical index. -/
theorem claim_keys_linear_matches_pk (env : Env) (s3 : Round3)
    (in3 : P2PMsgs (VerifiableSS × Bytes)) (r4 : Round4) (m3 : List (Msg DLogProof))
    (in4 : BroadcastMsgs DLogProof) (lk : LocalKey)
    (h3 : Round3.proceed env s3 in3 = some (Except.ok (r4, m3)))
    (h4 : Round4.proceed env r4 in4 = some (Except.ok lk))
    (hin : in4.msgs.length + 1 = r4.n)
    (hip : in4.party_i = r4.party_i)
    (hn : r4.party_i ≤ r4.n) :
    lk.keys_linear.X = lk.pk_vec.getD (lk.i - 1) default := by
  obtain ⟨dec, sk, hd, hs, hr4, -⟩ := round3_proceed_ok_inv env s3 in3 r4 m3 h3
  have hsk := phase2_ok_X_eq_pk _ _ _ _ _ _ hs
  obtain ⟨-, hg, rfl⟩ := round4_proceed_ok_inv env r4 in4 lk h4
  obtain ⟨-, -, -, hi1, -⟩ := hg
  have hjn : r4.party_i - 1 < r4.n := by omega
  have hown : (in4.into_vec_including_me r4.own_dlog_proof).getD (r4.party_i - 1) default =
      r4.own_dlog_proof := by
    unfold BroadcastMsgs.into_vec_including_me
    rw [hip]
    apply getD_insert_own
    rw [List.length_take]
    omega
  show r4.shared_keys.X =
    ((List.range r4.n).map
      (fun k => ((in4.into_vec_including_me r4.own_dlog_proof).getD k default).pk)).getD
      (r4.party_i - 1) default
  rw [getD_range_map _ _ _ _ hjn, hown, hr4]
  exact hsk

/-- C6 witness: the concrete Round3 → Round4 chain with n = 2, i = 1. -/
theorem claim_keys_linear_matches_pk_witness :
    (Round3.proceed testEnv testRound3 testP2PInputZero =
        some (Except.ok (testRound4z, [⟨4, 1, none, ⟨0, 0, 0⟩⟩])) ∧
      Round4.proceed testEnv testRound4z testProofInput = some (Except.ok testLocalKeyZ) ∧
      testProofInput.msgs.length + 1 = testRound4z.n ∧
      testProofInput.party_i = testRound4z.party_i ∧
      testRound4z.party_i ≤ testRound4z.n) ∧
    testLocalKeyZ.keys_linear.X = testLocalKeyZ.pk_vec.getD (testLocalKeyZ.i - 1) default :=
  ⟨⟨by decide, by decide, by decide, by decide, by decide⟩,
   claim_keys_linear_matches_pk testEnv testRound3 testP2PInputZero testRound4z
     [⟨4, 1, none, ⟨0, 0, 0⟩⟩] testProofInput testLocalKeyZ (by decide) (by decide)
     (by decide) (by decide) (by decide)⟩

/-- C1: a `Round2::proceed` whose verification succeeds pushes exactly n−1 P2P
messages — for each j ∈ [1,n], j ≠ i, one message with sender i, receiver
`some j`, and body (own VSS scheme, bytes of `Paillier.Enc(ek_j, share_j)`)
where `ek_j` comes from party j's stored R0 commitment; nothing is addressed
to `some i`, and `share_{i→i}` is carried in the `Round3` state as
`own_share`. -/
theorem claim_round2_messages (env : Env) (self : Round2)
    (input : BroadcastMsgs KeyGenDecommitMessage1)
    (scheme : VerifiableSS) (shares : List Scalar) (r3 : Round3)
    (msgs : List (Msg (VerifiableSS × Bytes)))
    (hv : env.phase1_verify_com_phase3_verify_correct_key_verify_dlog_phase2_distribute
      self.keys ⟨self.t, self.n⟩ (input.into_vec_including_me self.decom)
      self.received_comm = Except.ok (scheme, shares))
    (hsh : shares.length = self.n)
    (hrc : self.received_comm.length = self.n)
    (hp1 : 1 ≤ self.party_i) (hp2 : self.party_i ≤ self.n)
    (h : Round2.proceed env self input = some (Except.ok (r3, msgs))) :
    msgs.length = self.n - 1 ∧
    (∀ j, 1 ≤ j → j ≤ self.n → j ≠ self.party_i →
      (⟨3, self.party_i, some j,
        (scheme, BigInt.to_bytes (env.paillier_encrypt
          (self.received_comm.getD (j - 1) default).e
          (Scalar.to_bigint (shares.getD (j - 1) 0))))⟩ : Msg (VerifiableSS × Bytes)) ∈
        msgs) ∧
    (∀ m ∈ msgs, m.sender = self.party_i ∧ m.receiver ≠ some self.party_i) ∧
    r3.own_share = shares.getD (self.party_i - 1) 0 := by
  obtain ⟨⟨v1, v2⟩, hv', hg, hr3, hmsgs⟩ := round2_proceed_ok_inv env self input r3 msgs h
  rw [hv] at hv'
  obtain ⟨hq1, hq2⟩ := Prod.mk.inj (Except.ok.inj hv')
  subst hq1
  subst hq2
  dsimp only at hg hr3 hmsgs
  refine ⟨?_, ?_, ?_, ?_⟩
  · rw [hmsgs]
    unfold round2Msgs
    dsimp only
    rw [List.length_map, length_filter_range_ne _ _ hp1 hg.2.2, hsh]
  · intro j hj1 hj2 hjne
    rw [hmsgs]
    unfold round2Msgs
    dsimp only
    apply List.mem_map.mpr
    refine ⟨j - 1, ?_, ?_⟩
    · apply List.mem_filter.mpr
      refine ⟨List.mem_range.mpr (show j - 1 < shares.length by omega), ?_⟩
      simp only [decide_eq_true_eq]
      omega
    · unfold round2Msg
      have hj : j - 1 + 1 = j := by omega
      rw [hj]
  · intro m hm
    rw [hmsgs] at hm
    unfold round2Msgs at hm
    dsimp only at hm
    obtain ⟨k, hk, rfl⟩ := List.mem_map.mp hm
    have hkne : k + 1 ≠ self.party_i := by
      have := (List.mem_filter.mp hk).2
      simpa using this
    refine ⟨rfl, ?_⟩
    intro hc
    exact hkne (Option.some.inj hc)
  · rw [hr3]
    rfl

/-- C1 witness: the concrete n = 2, i = 1 Round2 transition sends exactly one
message, to party 2, and stores share 1 internally. -/
theorem claim_round2_messages_witness :
    (testEnv.phase1_verify_com_phase3_verify_correct_key_verify_dlog_phase2_distribute
        testRound2.keys ⟨testRound2.t, testRound2.n⟩
        (testDecomInput.into_vec_including_me testRound2.decom) testRound2.received_comm =
        Except.ok (testVss, [0, 0]) ∧
      ([0, 0] : List Scalar).length = testRound2.n ∧
      testRound2.received_comm.length = testRound2.n ∧
      1 ≤ testRound2.party_i ∧ testRound2.party_i ≤ testRound2.n ∧
      Round2.proceed testEnv testRound2 testDecomInput =
        some (Except.ok (testRound3, [⟨3, 1, some 2, (testVss, ⟨0⟩)⟩]))) ∧
    (([⟨3, 1, some 2, (testVss, ⟨0⟩)⟩] : List (Msg (VerifiableSS × Bytes))).length =
        testRound2.n - 1 ∧
      (⟨3, testRound2.party_i, some 2,
        (testVss, BigInt.to_bytes (testEnv.paillier_encrypt
          (testRound2.received_comm.getD 1 default).e
          (Scalar.to_bigint (([0, 0] : List Scalar).getD 1 0))))⟩ :
        Msg (VerifiableSS × Bytes)) ∈
        ([⟨3, 1, some 2, (testVss, ⟨0⟩)⟩] : List (Msg (VerifiableSS × Bytes))) ∧
      testRound3.own_share = ([0, 0] : List Scalar).getD 0 0) :=
  ⟨⟨rfl, by decide, by decide, by decide, by decide, by decide⟩,
   ⟨(claim_round2_messages testEnv testRound2 testDecomInput testVss [0, 0] testRound3
       [⟨3, 1, some 2, (testVss, ⟨0⟩)⟩] rfl (by decide) (by decide) (by decide) (by decide)
       (by decide)).1,
    (claim_round2_messages testEnv testRound2 testDecomInput testVss [0, 0] testRound3
       [⟨3, 1, some 2, (testVss, ⟨0⟩)⟩] rfl (by decide) (by decide) (by decide) (by decide)
       (by decide)).2.1 2 (by decide) (by decide) (by decide),
    (claim_round2_messages testEnv testRound2 testDecomInput testVss [0, 0] testRound3
       [⟨3, 1, some 2, (testVss, ⟨0⟩)⟩] rfl (by decide) (by decide) (by decide) (by decide)
       (by decide)).2.2.2⟩⟩

theorem pushAll_required {T : Type} (st : P2PMsgsStore T) (l : List (Msg T)) :
    (pushAll st l).required = st.required := by
  unfold P2PMsgsStore.required
  rw [pushAll_party_i, pushAll_n]

theorem pushAll_finish_complete {T : Type} (i n : Nat) (l : List (Msg T))
    (hcov : ∀ k ∈ ((List.range n).map (· + 1)).filter (fun a => a ≠ i),
      k ∈ l.map Msg.sender)
    (hnd : (l.map Msg.sender).Nodup) :
    ∃ dec, (pushAll (P2PMsgsStore.new T i n) l).finish = some dec ∧
      ∀ m ∈ l, (1 ≤ m.sender ∧ m.sender ≤ n ∧ m.sender ≠ i) →
        (m.sender, m.body) ∈ dec.msgs := by
  have hslot : ∀ m ∈ l, (1 ≤ m.sender ∧ m.sender ≤ n ∧ m.sender ≠ i) →
      (pushAll (P2PMsgsStore.new T i n) l).slots m.sender = some m.body := by
    intro m hm hv
    exact pushAll_slots_mem l (P2PMsgsStore.new T i n) m hm hnd hv rfl
  have hmemreq : ∀ k, (1 ≤ k ∧ k ≤ n ∧ k ≠ i) →
      k ∈ (pushAll (P2PMsgsStore.new T i n) l).required := by
    intro k hk
    apply (mem_required _ k).mpr
    rw [pushAll_n, pushAll_party_i]
    exact hk
  have hfill : (pushAll (P2PMsgsStore.new T i n) l).required.all
      (fun j => ((pushAll (P2PMsgsStore.new T i n) l).slots j).isSome) = true := by
    apply List.all_eq_true.mpr
    intro k hk
    have hkv : 1 ≤ k ∧ k ≤ n ∧ k ≠ i := by
      have := (mem_required _ k).mp hk
      rw [pushAll_n, pushAll_party_i] at this
      exact this
    have hks : k ∈ l.map Msg.sender := by
      apply hcov
      apply List.mem_filter.mpr
      refine ⟨List.mem_map.mpr ⟨k - 1, List.mem_range.mpr (by omega), by omega⟩, ?_⟩
      simp only [decide_eq_true_eq]
      exact hkv.2.2
    obtain ⟨m, hm, hms⟩ := List.mem_map.mp hks
    subst hms
    rw [hslot m hm hkv]
    rfl
  refine ⟨⟨(pushAll (P2PMsgsStore.new T i n) l).party_i,
    (pushAll (P2PMsgsStore.new T i n) l).required.filterMap
      (fun j => ((pushAll (P2PMsgsStore.new T i n) l).slots j).map (fun b => (j, b)))⟩,
    ?_, ?_⟩
  · unfold P2PMsgsStore.finish
    rw [if_pos hfill]
  · intro m hm hv
    apply List.mem_filterMap.mpr
    refine ⟨m.sender, hmemreq m.sender hv, ?_⟩
    rw [hslot m hm hv]
    rfl

theorem pushAll_finish_none {T : Type} (i n : Nat) (l : List (Msg T))
    (hlen : l.length = n - 1)
    (m0 : Msg T) (hm0 : m0 ∈ l)
    (hbad : ¬(1 ≤ m0.sender ∧ m0.sender ≤ n ∧ m0.sender ≠ i)) :
    (pushAll (P2PMsgsStore.new T i n) l).finish = none := by
  unfold P2PMsgsStore.finish
  split
  next hall =>
    exfalso
    have hsub : (pushAll (P2PMsgsStore.new T i n) l).required ⊆
        (l.filter (fun m => decide (1 ≤ m.sender ∧ m.sender ≤ n ∧ m.sender ≠ i))).map
          Msg.sender := by
      intro k hk
      have hks := List.all_eq_true.mp hall k hk
      rcases pushAll_slots_isSome l (P2PMsgsStore.new T i n) k hks with h0 | ⟨m, hm, hms, hb⟩
      · simp [P2PMsgsStore.new] at h0
      · subst hms
        apply List.mem_map.mpr
        refine ⟨m, List.mem_filter.mpr ⟨hm, ?_⟩, rfl⟩
        simp only [decide_eq_true_eq]
        exact hb
    have hle : (pushAll (P2PMsgsStore.new T i n) l).required.length ≤
        ((l.filter (fun m => decide (1 ≤ m.sender ∧ m.sender ≤ n ∧ m.sender ≠ i))).map
          Msg.sender).length :=
      ((required_nodup _).subperm hsub).length_le
    have hVlt : ((l.filter (fun m => decide (1 ≤ m.sender ∧ m.sender ≤ n ∧
        m.sender ≠ i))).map Msg.sender).length < l.length := by
      rw [List.length_map]
      exact List.length_filter_lt_length_iff_exists.mpr ⟨m0, hm0, by simpa using hbad⟩
    have hge : n - 1 ≤ (pushAll (P2PMsgsStore.new T i n) l).required.length := by
      rw [pushAll_required]
      exact required_length_ge (P2PMsgsStore.new T i n)
    omega
  next hall => rfl

theorem decrypt_senders (env : Env) (self : Round3)
    (msgs : List (Nat × (VerifiableSS × Bytes))) :
    (msgs.map (round3DecryptMsg env self)).map Msg.sender = msgs.map Prod.fst := by
  rw [List.map_map]
  rfl

theorem decryptedStore_complete (env : Env) (self : Round3)
    (input : P2PMsgs (VerifiableSS × Bytes))
    (hcov : ∀ k ∈ ((List.range self.n).map (· + 1)).filter (fun a => a ≠ self.party_i),
      k ∈ input.msgs.map Prod.fst)
    (hnd : (input.msgs.map Prod.fst).Nodup) :
    ∃ dec, Round3.decryptedStore env self input = some dec ∧
      ∀ p ∈ input.msgs, (1 ≤ p.1 ∧ p.1 ≤ self.n ∧ p.1 ≠ self.party_i) →
        (p.1, (round3DecryptMsg env self p).body) ∈ dec.msgs := by
  unfold Round3.decryptedStore
  have hsend := decrypt_senders env self input.msgs
  have hnd' : ((input.msgs.map (round3DecryptMsg env self)).map Msg.sender).Nodup := by
    rw [hsend]
    exact hnd
  have hcov' : ∀ k ∈ ((List.range self.n).map (· + 1)).filter (fun a => a ≠ self.party_i),
      k ∈ (input.msgs.map (round3DecryptMsg env self)).map Msg.sender := by
    intro k hk
    rw [hsend]
    exact hcov k hk
  obtain ⟨dec, hfin, hmem⟩ := pushAll_finish_complete self.party_i self.n
    (input.msgs.map (round3DecryptMsg env self)) hcov' hnd'
  refine ⟨dec, hfin, ?_⟩
  intro p hp hv
  exact hmem (round3DecryptMsg env self p) (List.mem_map_of_mem _ hp) hv

theorem decryptedStore_none_of_invalid (env : Env) (self : Round3)
    (input : P2PMsgs (VerifiableSS × Bytes))
    (hlen : input.msgs.length = self.n - 1)
    (p0 : Nat × (VerifiableSS × Bytes)) (hp0 : p0 ∈ input.msgs)
    (hbad : ¬(1 ≤ p0.1 ∧ p0.1 ≤ self.n ∧ p0.1 ≠ self.party_i)) :
    Round3.decryptedStore env self input = none := by
  unfold Round3.decryptedStore
  exact pushAll_finish_none self.party_i self.n _
    (by rw [List.length_map]; exact hlen)
    (round3DecryptMsg env self p0) (List.mem_map_of_mem _ hp0) hbad

theorem round3_proceed_isSome_of_store (env : Env) (self : Round3)
    (input : P2PMsgs (VerifiableSS × Bytes)) (dec : P2PMsgs (VerifiableSS × Scalar))
    (hd : Round3.decryptedStore env self input = some dec) :
    (Round3.proceed env self input).isSome = true := by
  simp only [Round3.proceed, hd]
  split <;> rfl

/-- C2: the scalar fed into the VSS consistency check for each received P2P
pair (vss_j, bytes) is `Scalar::from_bigint(Paillier.decrypt(dk,
BigInt::from_bytes(bytes)))` — the decrypted big integer is reduced modulo the
secp256k1 curve order, never rejected when it exceeds the order. -/
theorem claim_round3_share_reduction (env : Env) (self : Round3)
    (input : P2PMsgs (VerifiableSS × Bytes)) (j : Nat) (vss : VerifiableSS) (bytes : Bytes)
    (hcov : ∀ k ∈ ((List.range self.n).map (· + 1)).filter (fun a => a ≠ self.party_i),
      k ∈ input.msgs.map Prod.fst)
    (hnd : (input.msgs.map Prod.fst).Nodup)
    (hval : ∀ p ∈ input.msgs, 1 ≤ p.1 ∧ p.1 ≤ self.n ∧ p.1 ≠ self.party_i)
    (hmem : (j, (vss, bytes)) ∈ input.msgs) :
    (∃ dec, Round3.decryptedStore env self input = some dec ∧
      (j, (vss, Scalar.from_bigint
        (env.paillier_decrypt self.keys.dk (BigInt.from_bytes bytes)))) ∈ dec.msgs) ∧
    (∀ v : Nat, (Scalar.from_bigint v).val = v % secpOrder ∧
      Scalar.from_bigint v = Scalar.from_bigint (v % secpOrder)) := by
  constructor
  · obtain ⟨dec, hdec, hbody⟩ := decryptedStore_complete env self input hcov hnd
    exact ⟨dec, hdec, hbody (j, (vss, bytes)) hmem (hval _ hmem)⟩
  · intro v
    refine ⟨ZMod.val_natCast v, ?_⟩
    show ((v : ZMod secpOrder)) = (((v % secpOrder : Nat) : ZMod secpOrder))
    rw [ZMod.natCast_mod]

/-- C2 witness: n = 2, i = 1, a peer ciphertext decrypting to 5. -/
theorem claim_round3_share_reduction_witness :
    ((∀ k ∈ ((List.range testRound3.n).map (· + 1)).filter
        (fun a => a ≠ testRound3.party_i), k ∈ testP2PInput.msgs.map Prod.fst) ∧
      (testP2PInput.msgs.map Prod.fst).Nodup ∧
      (∀ p ∈ testP2PInput.msgs, 1 ≤ p.1 ∧ p.1 ≤ testRound3.n ∧ p.1 ≠ testRound3.party_i) ∧
      (2, (testVss, (⟨5⟩ : Bytes))) ∈ testP2PInput.msgs) ∧
    ((∃ dec, Round3.decryptedStore testEnv testRound3 testP2PInput = some dec ∧
        (2, (testVss, Scalar.from_bigint
          (testEnv.paillier_decrypt testRound3.keys.dk (BigInt.from_bytes ⟨5⟩)))) ∈
          dec.msgs) ∧
      (∀ v : Nat, (Scalar.from_bigint v).val = v % secpOrder ∧
        Scalar.from_bigint v = Scalar.from_bigint (v % secpOrder))) :=
  ⟨⟨by decide, by decide, by decide, by decide⟩,
   claim_round3_share_reduction testEnv testRound3 testP2PInput 2 testVss ⟨5⟩
     (by decide) (by decide) (by decide) (by decide)⟩

/-- C10: under the store contract (exactly the n−1 peer senders, each a valid
index in [1,n] other than i), the `finish().unwrap()` of the rebuilt decrypted
store is unreachable and the transition is total; a silently rejected push
(e.g. an out-of-range sender among the n−1 messages) instead makes the
transition panic (`none`) rather than return an error. -/
theorem claim_round3_store_rebuild :
    (∀ (env : Env) (self : Round3) (input : P2PMsgs (VerifiableSS × Bytes)),
      (∀ k ∈ ((List.range self.n).map (· + 1)).filter (fun a => a ≠ self.party_i),
        k ∈ input.msgs.map Prod.fst) →
      (input.msgs.map Prod.fst).Nodup →
      (Round3.decryptedStore env self input).isSome = true ∧
      (Round3.proceed env self input).isSome = true) ∧
    (∀ (env : Env) (self : Round3) (input : P2PMsgs (VerifiableSS × Bytes))
      (p0 : Nat × (VerifiableSS × Bytes)),
      input.msgs.length = self.n - 1 →
      p0 ∈ input.msgs →
      ¬(1 ≤ p0.1 ∧ p0.1 ≤ self.n ∧ p0.1 ≠ self.party_i) →
      Round3.proceed env self input = none) := by
  constructor
  · intro env self input hcov hnd
    obtain ⟨dec, hdec, -⟩ := decryptedStore_complete env self input hcov hnd
    refine ⟨?_, round3_proceed_isSome_of_store env self input dec hdec⟩
    rw [hdec]
    rfl
  · intro env self input p0 hlen hp0 hbad
    exact (round3_proceed_none_iff env self input).mpr
      (decryptedStore_none_of_invalid env self input hlen p0 hp0 hbad)

/-- C10 witness: the in-contract input is total; the one-message input with
sender 3 (out of range for n = 2) panics. -/
theorem claim_round3_store_rebuild_witness :
    (((∀ k ∈ ((List.range testRound3.n).map (· + 1)).filter
          (fun a => a ≠ testRound3.party_i), k ∈ testP2PInput.msgs.map Prod.fst) ∧
        (testP2PInput.msgs.map Prod.fst).Nodup) ∧
      (Round3.decryptedStore testEnv testRound3 testP2PInput).isSome = true ∧
      (Round3.proceed testEnv testRound3 testP2PInput).isSome = true) ∧
    ((testP2PInputBad.msgs.length = testRound3.n - 1 ∧
        (3, (testVss, (⟨5⟩ : Bytes))) ∈ testP2PInputBad.msgs ∧
        ¬(1 ≤ 3 ∧ 3 ≤ testRound3.n ∧ 3 ≠ testRound3.party_i)) ∧
      Round3.proceed testEnv testRound3 testP2PInputBad = none) :=
  ⟨⟨⟨by decide, by decide⟩,
    claim_round3_store_rebuild.1 testEnv testRound3 testP2PInput (by decide) (by decide)⟩,
   ⟨⟨by decide, by decide, by decide⟩,
    claim_round3_store_rebuild.2 testEnv testRound3 testP2PInputBad
      (3, (testVss, ⟨5⟩)) (by decide) (by decide) (by decide)⟩⟩
